import Mathlib

/-!
Verification of the portfolio-tracking repository's core accounting code.

The development shallowly embeds `modules/database.py` (class `DatabaseManager`)
and the dashboard metric computations of `app.py`.  The SQLite tables become
Lean lists kept in row-insertion (rowid) order; SQL `ORDER BY date ASC` becomes
a stable insertion sort on the `date` field; SQL `GROUP BY k` becomes "distinct
keys in ascending order" (SQLite materialises groups through a sorting B-tree,
so group rows come out ordered by the group key).  `REAL` amounts become `ℚ`;
`INTEGER` quantities become `ℤ`.  The `yfinance` price lookup is abstracted as
an oracle `String → Option ℚ` (`none` = quote unavailable).  Pandas
`.round(2)` becomes `round2`; pandas rounds half-to-even while `round2` rounds
half-up, but no quantity in this development sits on a half-cent tie.
-/

/-- Row of the `transactions` table (client_name, stock_symbol,
transaction_type, quantity, price, date, brokerage, realized_profit). -/
structure Txn where
  client_name : String
  stock_symbol : String
  transaction_type : String
  quantity : Int
  price : ℚ
  date : Nat
  brokerage : ℚ
  realized_profit : ℚ
deriving Repr, DecidableEq

/-- Row of the `cash_transactions` table. -/
structure CashTxn where
  client_name : String
  transaction_type : String
  amount : ℚ
  date : Nat
  description : String
deriving Repr, DecidableEq

/-- Database state: the `clients` table (name, initial_cash) and the two
row logs, each in rowid (insertion) order. -/
structure DBState where
  clients : List (String × ℚ)
  transactions : List Txn
  cash_transactions : List CashTxn
deriving Repr, DecidableEq

def emptyDB : DBState := ⟨[], [], []⟩

/-- ASCII upper-casing of one character, as Python `str.upper` acts on the
ASCII letters used by the transaction-type strings. -/
def upChar (c : Char) : Char :=
  if 97 ≤ c.toNat ∧ c.toNat ≤ 122 then Char.ofNat (c.toNat - 32) else c

/-- Python `s.upper()` for the ASCII strings this program compares. -/
def upperStr (s : String) : String := String.mk (s.data.map upChar)

/-- Byte-wise lexicographic comparison on character lists (SQLite's default
BINARY collation on ASCII text). -/
def lexLe : List Char → List Char → Bool
  | [], _ => true
  | _ :: _, [] => false
  | a :: as, b :: bs =>
    if a.toNat < b.toNat then true
    else if b.toNat < a.toNat then false
    else lexLe as bs

def strLe (a b : String) : Bool := lexLe a.data b.data

/-- Element-wise match of the first list against the front of the second. -/
def frontMatch : List Char → List Char → Bool
  | [], _ => true
  | _ :: _, [] => false
  | a :: as, b :: bs => a == b && frontMatch as bs

/-- Python `s.endswith(suf)`. -/
def endsWithStr (s suf : String) : Bool :=
  frontMatch suf.data.reverse s.data.reverse

/-- Insert into an ascending list (used to model SQLite's sorted GROUP BY
output). -/
def insertAsc (x : String) : List String → List String
  | [] => [x]
  | y :: ys => if strLe x y then x :: y :: ys else y :: insertAsc x ys

def sortKeys : List String → List String
  | [] => []
  | x :: xs => insertAsc x (sortKeys xs)

/-- Distinct group keys in ascending order: the rows `GROUP BY` produces. -/
def sqlGroupKeys (l : List String) : List String := sortKeys l.dedup

/-- Pandas `.round(2)` on one value (half-up; pandas ties-to-even differs only
on exact half-cent ties, which do not occur in this development). -/
def round2 (q : ℚ) : ℚ := (⌊q * 100 + 1/2⌋ : ℚ) / 100

/-- Stable insert by `date` (keeps earlier rows first among equal dates). -/
def insertByDate (x : Txn) : List Txn → List Txn
  | [] => [x]
  | y :: ys => if y.date ≤ x.date then y :: insertByDate x ys else x :: y :: ys

/-- SQL `ORDER BY date ASC` over rows in rowid order: a stable sort. -/
def orderByDate (l : List Txn) : List Txn :=
  l.foldl (fun acc x => insertByDate x acc) []

/-- Loop body of `_calculate_realized_profit`: walk the date-ordered Buy rows
accumulating `qty_to_sell * price` until the remaining sell quantity is
exhausted.  Mirrors the `for`/`break` loop of database.py lines 211-221. -/
def fifoConsume : List Txn → Int → ℚ
  | [], _ => 0
  | t :: rest, remaining =>
    if remaining ≤ 0 then 0
    else
      let qty_to_sell := min remaining t.quantity
      (qty_to_sell : ℚ) * t.price + fifoConsume rest (remaining - qty_to_sell)

/-- The `SELECT ... WHERE ... transaction_type = 'Buy' ORDER BY date ASC`
query of `_calculate_realized_profit`. -/
def buysFor (s : DBState) (client stock : String) : List Txn :=
  orderByDate (s.transactions.filter fun t =>
    t.client_name == client && t.stock_symbol == stock &&
    t.transaction_type == "Buy")

/-- Embeds `DatabaseManager._calculate_realized_profit` (database.py 190-230):
`0` when the client has no Buy rows for the stock, otherwise
`sell_quantity*sell_price - total_cost_basis - brokerage` with the cost basis
drawn FIFO from *all* Buy rows (no netting against earlier sells). -/
def calculate_realized_profit (s : DBState) (client stock : String)
    (sell_quantity : Int) (sell_price brokerage : ℚ) : ℚ :=
  let df := buysFor s client stock
  if df.isEmpty then 0
  else (sell_quantity : ℚ) * sell_price - fifoConsume df sell_quantity - brokerage

/-- Embeds `DatabaseManager.add_transaction` (database.py 145-188).  A type
whose upper-casing is `"SELL"` posts a cash `Deposit` of
`quantity*price - brokerage` and stores the computed realized profit; every
other type is treated as a buy and posts a cash `Withdrawal` of
`quantity*price + brokerage`.  No validation or position check exists; the
happy path always returns `true`. -/
def add_transaction (s : DBState) (client stock ttype : String)
    (quantity : Int) (price : ℚ) (date : Nat) (brokerage : ℚ) : DBState × Bool :=
  if upperStr ttype == "SELL" then
    let rp := calculate_realized_profit s client stock quantity price brokerage
    let cash_amount := (quantity : ℚ) * price - brokerage
    ({ s with
        cash_transactions := s.cash_transactions ++
          [⟨client, "Deposit", cash_amount, date,
            "Sale of " ++ toString quantity ++ " shares of " ++ stock⟩],
        transactions := s.transactions ++
          [⟨client, stock, ttype, quantity, price, date, brokerage, rp⟩] }, true)
  else
    let cash_amount := (quantity : ℚ) * price + brokerage
    ({ s with
        cash_transactions := s.cash_transactions ++
          [⟨client, "Withdrawal", cash_amount, date,
            "Purchase of " ++ toString quantity ++ " shares of " ++ stock⟩],
        transactions := s.transactions ++
          [⟨client, stock, ttype, quantity, price, date, brokerage, 0⟩] }, true)

/-- Embeds `DatabaseManager.add_cash_transaction` (database.py 232-250). -/
def add_cash_transaction (s : DBState) (client ttype : String) (amount : ℚ)
    (date : Nat) (descr : String) : DBState × Bool :=
  ({ s with cash_transactions :=
      s.cash_transactions ++ [⟨client, ttype, amount, date, descr⟩] }, true)

/-- Embeds `DatabaseManager.add_client` (database.py 74-98): rejects a
duplicate name (UNIQUE constraint), otherwise records the client and posts the
initial cash as a `Deposit`. -/
def add_client (s : DBState) (name : String) (initial_cash : ℚ) (date : Nat) :
    DBState × Bool :=
  if (s.clients.map Prod.fst).contains name then (s, false)
  else
    ({ s with
        clients := s.clients ++ [(name, initial_cash)],
        cash_transactions := s.cash_transactions ++
          [⟨name, "Deposit", initial_cash, date, "Initial investment"⟩] }, true)

def cashFor (s : DBState) (client : String) : List CashTxn :=
  s.cash_transactions.filter fun e => e.client_name == client

/-- The `GROUP BY transaction_type` query shared by `get_cash_balance` and
`get_cash_stats`: one `(type, SUM(amount))` row per distinct type, rows in
ascending type order. -/
def cashGroups (s : DBState) (client : String) : List (String × ℚ) :=
  (sqlGroupKeys ((cashFor s client).map (·.transaction_type))).map fun ty =>
    (ty, (((cashFor s client).filter fun e => e.transaction_type == ty).map
      (·.amount)).sum)

/-- Embeds `DatabaseManager.get_cash_balance` (database.py 252-273): the
`'Deposit'` group total minus the `'Withdrawal'` group total; any other
transaction type contributes nothing. -/
def get_cash_balance (s : DBState) (client : String) : ℚ :=
  let df := cashGroups s client
  let deposits := ((df.filter fun g => g.1 == "Deposit").map (·.2)).sum
  let withdrawals := ((df.filter fun g => g.1 == "Withdrawal").map (·.2)).sum
  deposits - withdrawals

structure CashStats where
  total_deposits : ℚ
  total_withdrawals : ℚ
  net_cash_flow : ℚ
deriving Repr, DecidableEq

/-- Loop body of `get_cash_stats` (database.py 308-312): the `'Deposit'`
group row *assigns* `total_deposits`, any other row *assigns*
`total_withdrawals`. -/
def statsStep (acc : ℚ × ℚ) (g : String × ℚ) : ℚ × ℚ :=
  if g.1 == "Deposit" then (g.2, acc.2) else (acc.1, g.2)

/-- Embeds `DatabaseManager.get_cash_stats` (database.py 293-320): iterates
the group rows, *assigning* (not accumulating) the `'Deposit'` row total to
`total_deposits` and every other row's total to `total_withdrawals` — a later
non-Deposit group overwrites an earlier one. -/
def get_cash_stats (s : DBState) (client : String) : CashStats :=
  let dw := (cashGroups s client).foldl statsStep (0, 0)
  ⟨dw.1, dw.2, dw.1 - dw.2⟩

/-- Symbol normalisation of `_get_current_price` (database.py 434-436): append
`.NS` unless the symbol already ends in `.NS` or `.BO`. -/
def normalizeSymbol (symbol : String) : String :=
  if !(endsWithStr symbol ".NS") && !(endsWithStr symbol ".BO")
  then symbol ++ ".NS" else symbol

/-- Embeds `DatabaseManager._get_current_price` (database.py 431-450).  The
oracle stands for the yfinance quote source; whenever it yields nothing (no
history, no info price, or an exception) the code substitutes the literal
default price `100.0`. -/
def get_current_price (oracle : String → Option ℚ) (symbol : String) : ℚ :=
  match oracle (normalizeSymbol symbol) with
  | some p => p
  | none => 100

def clientTxns (s : DBState) (client : String) : List Txn :=
  s.transactions.filter fun t => t.client_name == client

/-- `CASE WHEN transaction_type = 'Buy' THEN quantity ELSE -quantity END`. -/
def caseQty (t : Txn) : Int :=
  if t.transaction_type == "Buy" then t.quantity else -t.quantity

/-- `CASE WHEN transaction_type = 'Buy' THEN quantity*price + brokerage ELSE
-quantity*price + brokerage END` (note: brokerage is *added* in both arms). -/
def caseCost (t : Txn) : ℚ :=
  if t.transaction_type == "Buy" then (t.quantity : ℚ) * t.price + t.brokerage
  else -(t.quantity : ℚ) * t.price + t.brokerage

/-- One row of the holdings DataFrame produced by `get_current_holdings`. -/
structure HoldingRow where
  stock_symbol : String
  quantity : Int
  total_cost : ℚ
  avg_price : ℚ
  current_price : ℚ
  current_value : ℚ
  unrealized_pnl : ℚ
  unrealized_pnl_pct : ℚ
deriving Repr, DecidableEq

/-- Embeds `DatabaseManager.get_current_holdings` (database.py 322-354): a
`GROUP BY stock_symbol ... HAVING quantity > 0` aggregate, then per-row
valuation columns using the live price, everything rounded to 2 decimals.
The row type has no availability flag: a price the oracle cannot supply
surfaces as the numeric default from `get_current_price`. -/
def holdingRowFor (oracle : String → Option ℚ) (s : DBState)
    (client symbol : String) : Option HoldingRow :=
  let rows := (clientTxns s client).filter fun t => t.stock_symbol == symbol
  let quantity := (rows.map caseQty).sum
  if 0 < quantity then
    let total_cost := (rows.map caseCost).sum
    let avg_price := total_cost / (quantity : ℚ)
    let current_price := get_current_price oracle symbol
    let current_value := (quantity : ℚ) * current_price
    let unrealized_pnl := current_value - total_cost
    let unrealized_pnl_pct := round2 (unrealized_pnl / total_cost * 100)
    some ⟨symbol, quantity, round2 total_cost, round2 avg_price,
      round2 current_price, round2 current_value, round2 unrealized_pnl,
      round2 unrealized_pnl_pct⟩
  else none

def get_current_holdings (oracle : String → Option ℚ) (s : DBState)
    (client : String) : List HoldingRow :=
  (sqlGroupKeys ((clientTxns s client).map (·.stock_symbol))).filterMap
    (holdingRowFor oracle s client)

/-- Per-stock realized-profit total over `Sell` rows (database.py 372-379). -/
def realizedForStock (s : DBState) (client stock : String) : ℚ :=
  ((s.transactions.filter fun t =>
    t.client_name == client && t.stock_symbol == stock &&
    t.transaction_type == "Sell").map (·.realized_profit)).sum

/-- Holdings row extended with realized-profit columns. -/
structure HoldingRowR where
  base : HoldingRow
  realized_pnl : ℚ
  total_pnl : ℚ
deriving Repr, DecidableEq

/-- Embeds `DatabaseManager.get_current_holdings_with_realized`
(database.py 356-389). -/
def get_current_holdings_with_realized (oracle : String → Option ℚ)
    (s : DBState) (client : String) : List HoldingRowR :=
  (get_current_holdings oracle s client).map fun r =>
    let rp := realizedForStock s client r.stock_symbol
    ⟨r, round2 rp, round2 (rp + r.unrealized_pnl)⟩

/-- Embeds `DatabaseManager.get_total_realized_profit` (database.py 391-410):
sum of `realized_profit` over every `Sell` row of the client. -/
def get_total_realized_profit (s : DBState) (client : String) : ℚ :=
  ((s.transactions.filter fun t =>
    t.client_name == client && t.transaction_type == "Sell").map
    (·.realized_profit)).sum

/-- The `get_portfolio_summary` dictionary (database.py 452-471).  Note
`total_pnl` is the *unrealized* sum, as in the source. -/
structure Summary where
  invested_amount : ℚ
  current_value : ℚ
  total_pnl : ℚ
  unrealized_pnl : ℚ
  realized_pnl : ℚ
deriving Repr, DecidableEq

/-- Embeds `DatabaseManager.get_portfolio_summary` (database.py 452-471). -/
def get_portfolio_summary (oracle : String → Option ℚ) (s : DBState)
    (client : String) : Summary :=
  let h := get_current_holdings_with_realized oracle s client
  if h.isEmpty then ⟨0, 0, 0, 0, 0⟩
  else
    ⟨(h.map (·.base.total_cost)).sum, (h.map (·.base.current_value)).sum,
     (h.map (·.base.unrealized_pnl)).sum, (h.map (·.base.unrealized_pnl)).sum,
     (h.map (·.realized_pnl)).sum⟩

/-- `initial_cash` as the dashboard reads it (app.py 177-182): the client
row's column, `0` when the client row is missing. -/
def initialCashOf (s : DBState) (client : String) : ℚ :=
  ((s.clients.filter fun c => c.1 == client).map (·.2)).headD 0

/-- Dashboard metric (app.py 219-221): unrealized P&L percentage, divided by
the *invested amount*. -/
def tab1_unrealized_pct (oracle : String → Option ℚ) (s : DBState)
    (client : String) : ℚ :=
  let invested := (get_portfolio_summary oracle s client).invested_amount
  let unrealized := (get_portfolio_summary oracle s client).total_pnl
  if 0 < invested then unrealized / invested * 100 else 0

/-- Dashboard metric (app.py 231-232): realized P&L percentage, divided by
the *invested amount*. -/
def tab1_realized_pct (oracle : String → Option ℚ) (s : DBState)
    (client : String) : ℚ :=
  let invested := (get_portfolio_summary oracle s client).invested_amount
  let realized := get_total_realized_profit s client
  if 0 < invested then realized / invested * 100 else 0

/-- Dashboard metric (app.py 242-245): total-returns percentage, divided by
the client's *initial cash*. -/
def tab1_total_returns_pct (oracle : String → Option ℚ) (s : DBState)
    (client : String) : ℚ :=
  let realized := get_total_realized_profit s client
  let unrealized := (get_portfolio_summary oracle s client).total_pnl
  let initial := initialCashOf s client
  if 0 < initial then (realized + unrealized) / initial * 100 else 0

/-! Reference definitions written from the specification's words, used only to
compare the code's behaviour against the spec (never as part of the code's
embedding). -/

/-- Open lot of the spec's Lot Ledger: remaining quantity at one unit cost. -/
structure Lot where
  qty : Int
  unit_cost : ℚ
deriving Repr, DecidableEq

/-- Spec section 4.1: drain the oldest lots for a sell of quantity `q`,
returning the consumed cost basis and the remaining lot queue. -/
def specConsume : List Lot → Int → ℚ × List Lot
  | [], _ => (0, [])
  | l :: rest, q =>
    if q ≤ 0 then (0, l :: rest)
    else if l.qty ≤ q then
      let r := specConsume rest (q - l.qty)
      ((l.qty : ℚ) * l.unit_cost + r.1, r.2)
    else ((q : ℚ) * l.unit_cost, ⟨l.qty - q, l.unit_cost⟩ :: rest)

/-- Event of one (account, instrument) history, for the spec's Lot Ledger. -/
inductive SpecEvt where
  | buy (q : Int) (p : ℚ)
  | sell (q : Int) (p : ℚ) (fee : ℚ)
deriving Repr, DecidableEq

/-- Spec section 4.1 Lot Ledger: fold the ordered history into the final open
lots and one realized-P&L record per sell (in history order). -/
def specRun : List Lot → List SpecEvt → List Lot × List ℚ
  | lots, [] => (lots, [])
  | lots, .buy q p :: rest => specRun (lots ++ [⟨q, p⟩]) rest
  | lots, .sell q p fee :: rest =>
    let c := specConsume lots q
    let r := specRun c.2 rest
    (r.1, ((q : ℚ) * p - c.1 - fee) :: r.2)

/-- Total quantity bought: the spec's "total bought" for one instrument. -/
def boughtQty (s : DBState) (client stock : String) : Int :=
  ((s.transactions.filter fun t =>
    t.client_name == client && t.stock_symbol == stock &&
    t.transaction_type == "Buy").map (·.quantity)).sum

/-- Total quantity sold: the spec's "total sold" for one instrument. -/
def soldQty (s : DBState) (client stock : String) : Int :=
  ((s.transactions.filter fun t =>
    t.client_name == client && t.stock_symbol == stock &&
    t.transaction_type == "Sell").map (·.quantity)).sum

/-- Direct sum of the client's `'Deposit'`-typed cash amounts. -/
def depositSum (s : DBState) (client : String) : ℚ :=
  (((cashFor s client).filter fun e => e.transaction_type == "Deposit").map
    (·.amount)).sum

/-- Direct sum of the client's `'Withdrawal'`-typed cash amounts. -/
def withdrawalSum (s : DBState) (client : String) : ℚ :=
  (((cashFor s client).filter fun e => e.transaction_type == "Withdrawal").map
    (·.amount)).sum

/-- Last-writer-wins accumulator over the group rows whose key is not
`'Deposit'`. -/
def lastNonDepStep (a : ℚ) (g : String × ℚ) : ℚ :=
  if g.1 == "Deposit" then a else g.2

/-- Last-writer-wins accumulator over the group rows whose key is
`'Deposit'`. -/
def lastDepStep (a : ℚ) (g : String × ℚ) : ℚ :=
  if g.1 == "Deposit" then g.2 else a

/-- Total of the last group row whose key is not `'Deposit'` (`0` when there
is none): the value `get_cash_stats`'s overwriting loop leaves behind. -/
def lastNonDepositTotal (groups : List (String × ℚ)) : ℚ :=
  groups.foldl lastNonDepStep 0

/-! Concrete scenario states used by the individual claims. -/

/-- History Buy 10@100, Buy 10@200, then two sells of 10@150 each. -/
def c1_state : DBState :=
  (add_transaction (add_transaction (add_transaction
    (add_transaction emptyDB "c" "TCS" "Buy" 10 100 1 0).1
    "c" "TCS" "Buy" 10 200 2 0).1
    "c" "TCS" "Sell" 10 150 3 0).1
    "c" "TCS" "Sell" 10 150 4 0).1

/-- Selling 5 shares of a stock the client never bought or held. -/
def c2_result : DBState × Bool :=
  add_transaction emptyDB "c" "TCS" "Sell" 5 100 1 0

/-- The spec scenario: Buy 10@100, Buy 5@120, Sell 12@150, all zero fees. -/
def c3_state : DBState :=
  (add_transaction (add_transaction
    (add_transaction emptyDB "c" "TCS" "Buy" 10 100 1 0).1
    "c" "TCS" "Buy" 5 120 2 0).1
    "c" "TCS" "Sell" 12 150 3 0).1

def c3_oracle : String → Option ℚ := fun _ => some 130

/-- One held position of 3 shares bought at 50. -/
def c4_state : DBState :=
  (add_transaction emptyDB "c" "TCS" "Buy" 3 50 1 0).1

/-- Price oracle with every quote unavailable. -/
def c4_oracle : String → Option ℚ := fun _ => none

/-- The spec scenario: Deposit 100000 cash, Buy 10@100, Sell 5@150. -/
def c5_state : DBState :=
  (add_transaction (add_transaction
    (add_cash_transaction emptyDB "c" "Deposit" 100000 1 "seed").1
    "c" "TCS" "Buy" 10 100 2 0).1
    "c" "TCS" "Sell" 5 150 3 0).1

/-- Client created with initial cash 100000, then Buy 10@100 and Sell 5@150. -/
def c6_state : DBState :=
  (add_transaction (add_transaction
    (add_client emptyDB "c" 100000 1).1
    "c" "TCS" "Buy" 10 100 2 0).1
    "c" "TCS" "Sell" 5 150 3 0).1

def c6_oracle : String → Option ℚ := fun x => if x == "TCS.NS" then some 110 else none

/-- A transaction with unknown side, negative quantity and negative price. -/
def c7_result : DBState × Bool :=
  add_transaction emptyDB "c" "TCS" "Hold" (-5) (-10) 1 0

/-- Witness history for C8: position "A" fully sold, position "B" open. -/
def c8w_state : DBState :=
  ⟨[], [⟨"c", "A", "Buy", 2, 10, 1, 0, 0⟩,
        ⟨"c", "A", "Sell", 2, 12, 2, 0, 4⟩,
        ⟨"c", "B", "Buy", 1, 10, 3, 0, 0⟩], []⟩

def c8w_oracle : String → Option ℚ := fun _ => some 20

/-- Cash history Deposit 100, Other 50, Withdrawal 30 for one client. -/
def c9_state : DBState :=
  ⟨[], [], [⟨"c", "Deposit", 100, 1, ""⟩, ⟨"c", "Other", 50, 2, ""⟩,
            ⟨"c", "Withdrawal", 30, 3, ""⟩]⟩

/-- Witness state for C10: the only Buy row is for a different stock. -/
def c10w_state : DBState :=
  ⟨[], [⟨"c", "INFY", "Buy", 2, 10, 1, 0, 0⟩], []⟩

/-!  Theorems settling the claims. -/

/-- C1: the code's realized P&L does not consume lots net of earlier sells.
On Buy 10@100, Buy 10@200, Sell 10@150, Sell 10@150 the code records 500 for
the second sell (it re-consumes the cheapest lot from all Buy rows), while the
FIFO lot ledger of the claim — whose oldest lot was exhausted by the first
sell — yields 1500 − 2000 = −500. -/
theorem c1_second_sell_reuses_consumed_lots :
    (c1_state.transactions.map (·.realized_profit)) = [0, 0, 500, 500] ∧
    (specRun [] [.buy 10 100, .buy 10 200, .sell 10 150 0, .sell 10 150 0]).2 =
      [500, -500] ∧ (500 : ℚ) ≠ -500 := by
  refine ⟨?_, ?_, by norm_num⟩
  · simp [c1_state, add_transaction, emptyDB, calculate_realized_profit,
      buysFor, orderByDate, insertByDate, fifoConsume, upperStr, upChar]
    norm_num
  · simp [specRun, specConsume]
    norm_num

/-- C2: a sell of 5 shares with zero held quantity is not rejected:
`add_transaction` has no position check, returns `True`, and appends both a
transaction row and a cash-ledger row, and no `InsufficientPosition` error
exists anywhere in the code. -/
theorem c2_oversell_accepted_and_mutates :
    boughtQty emptyDB "c" "TCS" - soldQty emptyDB "c" "TCS" = 0 ∧
    c2_result.2 = true ∧
    (c2_result.1.transactions.map fun t => (t.transaction_type, t.quantity)) =
      [("Sell", 5)] ∧
    (c2_result.1.cash_transactions.map fun e => (e.transaction_type, e.amount)) =
      [("Deposit", 500)] := by
  refine ⟨by simp [boughtQty, soldQty, emptyDB], ?_, ?_, ?_⟩ <;>
    simp [c2_result, add_transaction, emptyDB, calculate_realized_profit,
      buysFor, orderByDate, insertByDate, fifoConsume, upperStr, upChar] <;>
    norm_num

/-- C3 counterexample: on Buy 10@100, Buy 5@120, Sell 12@150 the remaining
holding the code reports is 3 units, but at average price −66.67 — the code's
`total_cost` nets the full sale proceeds against the buys (10·100 + 5·120 −
12·150 = −200) — not at unit cost 120 as the claim states. -/
theorem c3_remaining_unit_cost_not_120 :
    ((get_current_holdings c3_oracle c3_state "c").map fun r =>
      (r.quantity, r.avg_price)) = [(3, -6667/100)] ∧
    (-6667/100 : ℚ) ≠ 120 := by
  refine ⟨?_, by norm_num⟩
  simp [get_current_holdings, holdingRowFor, List.filterMap_cons, clientTxns, sqlGroupKeys, sortKeys, insertAsc,
    strLe, lexLe, c3_state, add_transaction, emptyDB,
    calculate_realized_profit, buysFor, orderByDate, insertByDate, fifoConsume,
    upperStr, upChar, List.dedup, caseQty, caseCost, round2, c3_oracle,
    get_current_price, normalizeSymbol, endsWithStr, frontMatch]
  norm_num

/-- C3 amended: the sell's FIFO cost basis is 1240, proceeds are 1800 and its
recorded realized P&L is 560, and the remaining holding has 3 units — but the
code reports it with total cost −200 (buys minus the full sale proceeds),
i.e. average price −66.67, not unit cost 120. -/
theorem c3_scenario_values :
    fifoConsume (buysFor c3_state "c" "TCS") 12 = 1240 ∧
    ((12 : ℚ) * 150) = 1800 ∧
    (c3_state.transactions.map (·.realized_profit)) = [0, 0, 560] ∧
    ((get_current_holdings c3_oracle c3_state "c").map fun r =>
      (r.stock_symbol, r.quantity, r.total_cost, r.avg_price)) =
      [("TCS", 3, -200, -6667/100)] := by
  refine ⟨?_, by norm_num, ?_, ?_⟩ <;>
    simp [get_current_holdings, holdingRowFor, List.filterMap_cons, clientTxns, sqlGroupKeys, sortKeys, insertAsc,
      strLe, lexLe, c3_state, add_transaction, emptyDB,
      calculate_realized_profit, buysFor, orderByDate, insertByDate,
      fifoConsume, upperStr, upChar, List.dedup, caseQty, caseCost, round2,
      c3_oracle, get_current_price, normalizeSymbol, endsWithStr, frontMatch] <;>
    norm_num

/-- C4: when the price oracle has no quote, the holding is not marked Unknown
or excluded: `get_current_price` substitutes the numeric default 100, the row
is valued at quantity × 100, and that value enters the portfolio summary
total. -/
theorem c4_unavailable_price_defaults_to_100 :
    c4_oracle "TCS.NS" = none ∧
    ((get_current_holdings c4_oracle c4_state "c").map fun r =>
      (r.current_price, r.current_value)) = [(100, 300)] ∧
    (get_portfolio_summary c4_oracle c4_state "c").current_value = 300 := by
  refine ⟨rfl, ?_, ?_⟩ <;>
    simp [get_portfolio_summary, get_current_holdings_with_realized,
      realizedForStock, get_current_holdings, holdingRowFor,
      List.filterMap_cons, clientTxns, sqlGroupKeys,
      sortKeys, insertAsc, strLe, lexLe, c4_state, add_transaction, emptyDB,
      calculate_realized_profit, buysFor, orderByDate, insertByDate,
      fifoConsume, upperStr, upChar, List.dedup, caseQty, caseCost, round2,
      c4_oracle, get_current_price, normalizeSymbol, endsWithStr, frontMatch] <;>
    norm_num

/-- C5: on Deposit 100000, Buy 10@100, Sell 5@150 the buy posts a cash
`Withdrawal` of 1000 (a −1000 movement), the sell posts a `Deposit` of 750,
and the resulting cash balance is 99750. -/
theorem c5_cash_ledger_scenario :
    (c5_state.cash_transactions.map fun e => (e.transaction_type, e.amount)) =
      [("Deposit", 100000), ("Withdrawal", 1000), ("Deposit", 750)] ∧
    get_cash_balance c5_state "c" = 99750 := by
  refine ⟨?_, ?_⟩ <;>
    simp [get_cash_balance, cashGroups, cashFor, sqlGroupKeys, sortKeys,
      insertAsc, strLe, lexLe, c5_state, add_transaction, add_cash_transaction,
      emptyDB, calculate_realized_profit, buysFor, orderByDate, insertByDate,
      fifoConsume, upperStr, upChar, List.dedup] <;>
    norm_num

/-- C7: a transaction with unknown side `"Hold"`, negative quantity and
negative price is not rejected: `add_transaction` performs no validation (no
`ValidationError` exists in the code), returns `True`, stores the row as
given, and posts a cash `Withdrawal` of (−5)·(−10) = 50. -/
theorem c7_invalid_transaction_accepted :
    c7_result.2 = true ∧
    (c7_result.1.transactions.map fun t =>
      (t.transaction_type, t.quantity, t.price)) = [("Hold", -5, -10)] ∧
    (c7_result.1.cash_transactions.map fun e => (e.transaction_type, e.amount)) =
      [("Withdrawal", 50)] := by
  refine ⟨?_, ?_, ?_⟩ <;>
    simp [c7_result, add_transaction, emptyDB, calculate_realized_profit,
      buysFor, orderByDate, insertByDate, fifoConsume, upperStr, upChar] <;>
    norm_num

/-- C6: the dashboard mixes three different percentage bases.  With initial
cash 100000, Buy 10@100 and Sell 5@150 priced at 110: the unrealized and
realized percentages divide by the invested amount 250 (which equals neither
the cash-ledger balance 99750 nor the initial capital 100000), while the
total-returns percentage divides the very same P&L figures by the initial
capital — so two reported percentages use different bases. -/
theorem c6_percentage_bases_mixed :
    (get_portfolio_summary c6_oracle c6_state "c").invested_amount = 250 ∧
    (get_portfolio_summary c6_oracle c6_state "c").total_pnl = 300 ∧
    get_total_realized_profit c6_state "c" = 250 ∧
    initialCashOf c6_state "c" = 100000 ∧
    get_cash_balance c6_state "c" = 99750 ∧
    tab1_unrealized_pct c6_oracle c6_state "c" = 300 / 250 * 100 ∧
    tab1_realized_pct c6_oracle c6_state "c" = 250 / 250 * 100 ∧
    tab1_total_returns_pct c6_oracle c6_state "c" = (250 + 300) / 100000 * 100 ∧
    tab1_unrealized_pct c6_oracle c6_state "c" ≠ 300 / 100000 * 100 ∧
    tab1_unrealized_pct c6_oracle c6_state "c" ≠ 300 / 99750 * 100 ∧
    tab1_total_returns_pct c6_oracle c6_state "c" ≠ (250 + 300) / 250 * 100 := by
  refine ⟨?_, ?_, ?_, ?_, ?_, ?_, ?_, ?_, ?_, ?_, ?_⟩ <;>
    simp [tab1_unrealized_pct, tab1_realized_pct, tab1_total_returns_pct,
      initialCashOf, get_total_realized_profit, get_portfolio_summary,
      get_current_holdings_with_realized, realizedForStock,
      get_current_holdings, holdingRowFor, List.filterMap_cons, clientTxns, get_cash_balance, cashGroups, cashFor,
      sqlGroupKeys, sortKeys, insertAsc, strLe, lexLe, c6_state, c6_oracle,
      add_transaction, add_cash_transaction, add_client, emptyDB,
      calculate_realized_profit, buysFor, orderByDate, insertByDate,
      fifoConsume, upperStr, upChar, List.dedup, caseQty, caseCost, round2,
      get_current_price, normalizeSymbol, endsWithStr, frontMatch] <;>
    norm_num

/-- C9 counterexample: with cash history Deposit 100, Other 50, Withdrawal 30,
an entry of a third type exists, yet `get_cash_balance` and
`get_cash_stats.net_cash_flow` agree (both 70): the stats loop's 'Withdrawal'
group overwrites the 'Other' group, so the two do *not* disagree whenever a
non-Deposit, non-Withdrawal entry exists. -/
theorem c9_third_type_can_agree :
    (c9_state.cash_transactions.map (·.transaction_type)) =
      ["Deposit", "Other", "Withdrawal"] ∧
    ("Other" : String) ≠ "Deposit" ∧ ("Other" : String) ≠ "Withdrawal" ∧
    get_cash_balance c9_state "c" = 70 ∧
    (get_cash_stats c9_state "c").net_cash_flow = 70 := by
  refine ⟨rfl, by simp, by simp, ?_, ?_⟩ <;>
    simp [get_cash_balance, get_cash_stats, statsStep, cashGroups, cashFor, sqlGroupKeys,
      sortKeys, insertAsc, strLe, lexLe, c9_state, List.dedup] <;>
    norm_num

/-- C10: a sell with no recorded Buy rows for its (client, stock) succeeds,
stores realized profit exactly 0 (the empty-DataFrame early return of
`_calculate_realized_profit`), and still credits the cash ledger with
`quantity*price - brokerage`. -/
theorem c10_sell_without_buys_succeeds (s : DBState) (client stock : String)
    (qty : Int) (price : ℚ) (date : Nat) (fee : ℚ)
    (h : ∀ t ∈ s.transactions,
      ¬(t.client_name = client ∧ t.stock_symbol = stock ∧
        t.transaction_type = "Buy")) :
    (add_transaction s client stock "Sell" qty price date fee).2 = true ∧
    ((add_transaction s client stock "Sell" qty price date fee).1.transactions.map
      (·.realized_profit)) = s.transactions.map (·.realized_profit) ++ [0] ∧
    ((add_transaction s client stock "Sell" qty price date fee).1.cash_transactions.map
      fun e => (e.client_name, e.transaction_type, e.amount)) =
      (s.cash_transactions.map fun e => (e.client_name, e.transaction_type, e.amount))
      ++ [(client, "Deposit", (qty : ℚ) * price - fee)] := by
  have hsell : (upperStr "Sell" == "SELL") = true := by decide
  have hfil : (s.transactions.filter fun t =>
      t.client_name == client && t.stock_symbol == stock &&
      t.transaction_type == "Buy") = [] := by
    refine List.filter_eq_nil_iff.mpr fun t ht => ?_
    have ht2 := h t ht
    simp only [Bool.and_eq_true, beq_iff_eq]
    tauto
  have hrp : calculate_realized_profit s client stock qty price fee = 0 := by
    simp [calculate_realized_profit, buysFor, hfil, orderByDate]
  simp [add_transaction, hsell, hrp]

/-- C10 witness: the general theorem applied to a state whose only Buy row
concerns a different stock. -/
theorem c10_sell_without_buys_witness :
    (∀ t ∈ c10w_state.transactions,
      ¬(t.client_name = "c" ∧ t.stock_symbol = "TCS" ∧
        t.transaction_type = "Buy")) ∧
    ((add_transaction c10w_state "c" "TCS" "Sell" 7 3 2 1).2 = true ∧
    ((add_transaction c10w_state "c" "TCS" "Sell" 7 3 2 1).1.transactions.map
      (·.realized_profit)) = c10w_state.transactions.map (·.realized_profit) ++ [0] ∧
    ((add_transaction c10w_state "c" "TCS" "Sell" 7 3 2 1).1.cash_transactions.map
      fun e => (e.client_name, e.transaction_type, e.amount)) =
      (c10w_state.cash_transactions.map
        fun e => (e.client_name, e.transaction_type, e.amount))
      ++ [("c", "Deposit", (7 : ℚ) * 3 - 1)]) :=
  ⟨by decide, c10_sell_without_buys_succeeds c10w_state "c" "TCS" 7 3 2 1 (by decide)⟩

/-- Net signed quantity of a filtered transaction list equals total Buy
quantity minus total Sell quantity, provided every row is a Buy or a Sell. -/
theorem caseQty_sum_eq (client stock : String) :
    ∀ l : List Txn,
    (∀ t ∈ l, t.transaction_type = "Buy" ∨ t.transaction_type = "Sell") →
    ((l.filter fun t => t.stock_symbol == stock && t.client_name == client).map
      caseQty).sum
    = ((l.filter fun t => t.client_name == client && t.stock_symbol == stock &&
        t.transaction_type == "Buy").map (·.quantity)).sum
      - ((l.filter fun t => t.client_name == client && t.stock_symbol == stock &&
        t.transaction_type == "Sell").map (·.quantity)).sum := by
  intro l h
  induction l with
  | nil => simp
  | cons t l ih =>
    have ht := h t (by simp)
    have hl := fun x hx => h x (List.mem_cons_of_mem _ hx)
    by_cases hc : t.client_name = client
    · by_cases hs : t.stock_symbol = stock
      · rcases ht with hb | hsel
        · simp [List.filter_cons, hc, hs, hb, caseQty, ih hl]
          ring
        · simp [List.filter_cons, hc, hs, hsel, caseQty, ih hl]
          ring
      · simp [List.filter_cons, hc, hs, ih hl]
    · simp [List.filter_cons, hc, ih hl]

/-- Inversion for a produced holdings row: its symbol is the group key, its
quantity is the `CASE WHEN` sum, and the `HAVING quantity > 0` clause holds. -/
theorem holdingRowFor_some {oracle : String → Option ℚ} {s : DBState}
    {client symbol : String} {r : HoldingRow}
    (hf : holdingRowFor oracle s client symbol = some r) :
    r.stock_symbol = symbol ∧ 0 < r.quantity ∧
    r.quantity = (((clientTxns s client).filter
      fun t => t.stock_symbol == symbol).map caseQty).sum := by
  unfold holdingRowFor at hf
  by_cases hq : 0 < (((clientTxns s client).filter
      fun t => t.stock_symbol == symbol).map caseQty).sum
  · simp only [if_pos hq] at hf
    obtain rfl := Option.some.inj hf
    exact ⟨rfl, hq, rfl⟩
  · simp only [if_neg hq] at hf
    exact absurd hf (by simp)

/-- C8: for a history of Buy/Sell rows, every holdings row's quantity is the
net bought-minus-sold quantity of its instrument, and an instrument whose net
quantity is zero never appears as a holding (`HAVING quantity > 0` keeps only
strictly positive rows). -/
theorem c8_holdings_net_of_buys_and_sells (oracle : String → Option ℚ)
    (s : DBState) (client : String)
    (h : ∀ t ∈ s.transactions,
      t.transaction_type = "Buy" ∨ t.transaction_type = "Sell") :
    (∀ r ∈ get_current_holdings oracle s client,
      r.quantity = boughtQty s client r.stock_symbol -
        soldQty s client r.stock_symbol) ∧
    (∀ stock, boughtQty s client stock - soldQty s client stock = 0 →
      ∀ r ∈ get_current_holdings oracle s client, r.stock_symbol ≠ stock) := by
  have key : ∀ r ∈ get_current_holdings oracle s client,
      0 < r.quantity ∧ r.quantity = boughtQty s client r.stock_symbol -
        soldQty s client r.stock_symbol := by
    intro r hr
    rw [get_current_holdings, List.mem_filterMap] at hr
    obtain ⟨sym, hmem, hf⟩ := hr
    obtain ⟨hsym, hpos, hqty⟩ := holdingRowFor_some hf
    subst hsym
    refine ⟨hpos, ?_⟩
    rw [hqty]
    have hmain := caseQty_sum_eq client r.stock_symbol s.transactions h
    rw [boughtQty, soldQty]
    rw [clientTxns, List.filter_filter]
    exact hmain
  refine ⟨fun r hr => (key r hr).2, ?_⟩
  intro stock h0 r hr hcontra
  obtain ⟨hpos, heq⟩ := key r hr
  rw [hcontra, h0] at heq
  rw [heq] at hpos
  exact lt_irrefl 0 hpos

/-- C8 witness: the general theorem applied to a concrete Buy/Sell history in
which position "A" is fully sold and position "B" stays open. -/
theorem c8_holdings_net_witness :
    (∀ t ∈ c8w_state.transactions,
      t.transaction_type = "Buy" ∨ t.transaction_type = "Sell") ∧
    ((∀ r ∈ get_current_holdings c8w_oracle c8w_state "c",
      r.quantity = boughtQty c8w_state "c" r.stock_symbol -
        soldQty c8w_state "c" r.stock_symbol) ∧
    (∀ stock, boughtQty c8w_state "c" stock - soldQty c8w_state "c" stock = 0 →
      ∀ r ∈ get_current_holdings c8w_oracle c8w_state "c",
        r.stock_symbol ≠ stock)) :=
  ⟨by decide, c8_holdings_net_of_buys_and_sells c8w_oracle c8w_state "c" (by decide)⟩

theorem statsStep_dep {g : String × ℚ} (acc : ℚ × ℚ) (h : g.1 = "Deposit") :
    statsStep acc g = (g.2, acc.2) := by
  rw [statsStep, if_pos (by simp [h])]

theorem statsStep_other {g : String × ℚ} (acc : ℚ × ℚ) (h : g.1 ≠ "Deposit") :
    statsStep acc g = (acc.1, g.2) := by
  rw [statsStep, if_neg (by simp [h])]

theorem lastDepStep_dep {g : String × ℚ} (a : ℚ) (h : g.1 = "Deposit") :
    lastDepStep a g = g.2 := by
  rw [lastDepStep, if_pos (by simp [h])]

theorem lastDepStep_other {g : String × ℚ} (a : ℚ) (h : g.1 ≠ "Deposit") :
    lastDepStep a g = a := by
  rw [lastDepStep, if_neg (by simp [h])]

theorem lastNonDepStep_dep {g : String × ℚ} (a : ℚ) (h : g.1 = "Deposit") :
    lastNonDepStep a g = a := by
  rw [lastNonDepStep, if_pos (by simp [h])]

theorem lastNonDepStep_other {g : String × ℚ} (a : ℚ) (h : g.1 ≠ "Deposit") :
    lastNonDepStep a g = g.2 := by
  rw [lastNonDepStep, if_neg (by simp [h])]

/-- Second component of the stats loop: the last non-Deposit group total. -/
theorem statsFold_snd (gs : List (String × ℚ)) : ∀ d w : ℚ,
    (gs.foldl statsStep (d, w)).2 = gs.foldl lastNonDepStep w := by
  induction gs with
  | nil => simp
  | cons g gs ih =>
    intro d w
    rw [List.foldl_cons, List.foldl_cons]
    by_cases hg : g.1 = "Deposit"
    · rw [statsStep_dep _ hg, lastNonDepStep_dep _ hg]
      exact ih _ _
    · rw [statsStep_other _ hg, lastNonDepStep_other _ hg]
      exact ih _ _

/-- First component of the stats loop: the last Deposit group total. -/
theorem statsFold_fst (gs : List (String × ℚ)) : ∀ d w : ℚ,
    (gs.foldl statsStep (d, w)).1 = gs.foldl lastDepStep d := by
  induction gs with
  | nil => simp
  | cons g gs ih =>
    intro d w
    rw [List.foldl_cons, List.foldl_cons]
    by_cases hg : g.1 = "Deposit"
    · rw [statsStep_dep _ hg, lastDepStep_dep _ hg]
      exact ih _ _
    · rw [statsStep_other _ hg, lastDepStep_other _ hg]
      exact ih _ _

theorem foldD_skip : ∀ (gs : List (String × ℚ)) (a : ℚ),
    "Deposit" ∉ gs.map Prod.fst → gs.foldl lastDepStep a = a := by
  intro gs
  induction gs with
  | nil => simp
  | cons g gs ih =>
    intro a h
    have hg : g.1 ≠ "Deposit" := fun e => h (by simp [e.symm])
    have hgs : "Deposit" ∉ gs.map Prod.fst := fun m => h (by simp; tauto)
    rw [List.foldl_cons, lastDepStep_other _ hg]
    exact ih _ hgs

/-- With pairwise-distinct keys, the last-writer Deposit accumulator equals
the sum over the (at most one) Deposit group. -/
theorem foldD_pairs : ∀ (gs : List (String × ℚ)),
    (gs.map Prod.fst).Nodup →
    gs.foldl lastDepStep 0 =
      ((gs.filter fun g => g.1 == "Deposit").map (·.2)).sum := by
  intro gs
  induction gs with
  | nil => simp
  | cons g gs ih =>
    intro h
    rw [List.map_cons, List.nodup_cons] at h
    by_cases hg : g.1 = "Deposit"
    · have hno : "Deposit" ∉ gs.map Prod.fst := hg ▸ h.1
      have hfil : (gs.filter fun g => g.1 == "Deposit") = [] := by
        refine List.filter_eq_nil_iff.mpr fun x hx => ?_
        simp only [beq_iff_eq]
        exact fun e => hno (e ▸ List.mem_map_of_mem Prod.fst hx)
      rw [List.foldl_cons, lastDepStep_dep _ hg,
        List.filter_cons_of_pos (by simp [hg]), hfil, foldD_skip gs _ hno]
      simp
    · rw [List.foldl_cons, lastDepStep_other _ hg,
        List.filter_cons_of_neg (by simp [hg])]
      exact ih h.2

theorem mem_insertAsc {a x : String} {l : List String} :
    a ∈ insertAsc x l ↔ a = x ∨ a ∈ l := by
  induction l with
  | nil => simp [insertAsc]
  | cons y ys ih =>
    rw [insertAsc]
    by_cases hs : strLe x y
    · simp [hs]
    · simp [hs, ih]
      tauto

theorem nodup_insertAsc {x : String} {l : List String} (hx : x ∉ l)
    (hl : l.Nodup) : (insertAsc x l).Nodup := by
  induction l with
  | nil => simp [insertAsc]
  | cons y ys ih =>
    rw [List.nodup_cons] at hl
    have hxy : x ≠ y := fun e => hx (by simp [e])
    have hxys : x ∉ ys := fun m => hx (List.mem_cons_of_mem _ m)
    rw [insertAsc]
    by_cases hs : strLe x y
    · rw [if_pos hs, List.nodup_cons, List.nodup_cons]
      exact ⟨hx, hl.1, hl.2⟩
    · rw [if_neg hs, List.nodup_cons]
      refine ⟨fun hy => ?_, ih hxys hl.2⟩
      rcases mem_insertAsc.mp hy with he | hm
      · exact hxy he.symm
      · exact hl.1 hm

theorem mem_sortKeys {a : String} {l : List String} :
    a ∈ sortKeys l ↔ a ∈ l := by
  induction l with
  | nil => simp [sortKeys]
  | cons x xs ih =>
    rw [sortKeys]
    simp [mem_insertAsc, ih]

theorem nodup_sortKeys {l : List String} (h : l.Nodup) : (sortKeys l).Nodup := by
  induction l with
  | nil => simp [sortKeys]
  | cons x xs ih =>
    rw [List.nodup_cons] at h
    rw [sortKeys]
    exact nodup_insertAsc (fun m => h.1 (mem_sortKeys.mp m)) (ih h.2)

theorem mem_sqlGroupKeys {a : String} {l : List String} :
    a ∈ sqlGroupKeys l ↔ a ∈ l := by
  rw [sqlGroupKeys, mem_sortKeys, List.mem_dedup]

theorem nodup_sqlGroupKeys (l : List String) : (sqlGroupKeys l).Nodup :=
  nodup_sortKeys l.nodup_dedup

theorem filter_beq_nil {a : String} {l : List String} (h : a ∉ l) :
    (l.filter fun x => x == a) = [] := by
  refine List.filter_eq_nil_iff.mpr fun x hx => ?_
  simp only [beq_iff_eq]
  exact fun e => h (e ▸ hx)

theorem filter_beq_single {a : String} :
    ∀ {l : List String}, l.Nodup → a ∈ l → (l.filter fun x => x == a) = [a] := by
  intro l
  induction l with
  | nil => simp
  | cons y ys ih =>
    intro hn hm
    rw [List.nodup_cons] at hn
    by_cases hy : y = a
    · subst hy
      rw [List.filter_cons_of_pos (by simp), filter_beq_nil hn.1]
    · rw [List.filter_cons_of_neg (by simp [hy])]
      refine ih hn.2 ?_
      rcases List.mem_cons.mp hm with he | hmem
      · exact absurd he.symm hy
      · exact hmem

/-- The group rows selected by one type carry exactly that type's direct
entry-sum: the bridge between the `GROUP BY` output and plain filtering. -/
theorem cashGroups_filter_sum (s : DBState) (client ty : String) :
    (((cashGroups s client).filter fun g => g.1 == ty).map (·.2)).sum
    = (((cashFor s client).filter fun e => e.transaction_type == ty).map
        (·.amount)).sum := by
  rw [cashGroups, List.filter_map, List.map_map]
  have hps : (((fun g => g.1 == ty) ∘ fun t =>
      ((t, (((cashFor s client).filter fun e =>
        e.transaction_type == t).map (·.amount)).sum) : String × ℚ))) =
      fun k => k == ty := rfl
  rw [hps]
  by_cases hin : ty ∈ sqlGroupKeys ((cashFor s client).map (·.transaction_type))
  · rw [filter_beq_single (nodup_sqlGroupKeys _) hin]
    simp
  · rw [filter_beq_nil hin]
    have hnil : ((cashFor s client).filter
        fun e => e.transaction_type == ty) = [] := by
      refine List.filter_eq_nil_iff.mpr fun e he => ?_
      simp only [beq_iff_eq]
      intro hee
      exact hin (mem_sqlGroupKeys.mpr (List.mem_map.mpr ⟨e, he, hee⟩))
    rw [hnil]
    simp

theorem cashGroups_fst (s : DBState) (client : String) :
    (cashGroups s client).map Prod.fst =
    sqlGroupKeys ((cashFor s client).map (·.transaction_type)) := by
  rw [cashGroups, List.map_map]
  exact List.map_id' _

/-- C9 amended: `get_cash_balance` is the `'Deposit'` entry-sum minus the
`'Withdrawal'` entry-sum (other types contribute nothing); `get_cash_stats`
reports as `total_withdrawals` only the total of the *last* non-`'Deposit'`
group (later groups overwrite earlier ones), so its `net_cash_flow` agrees
with the balance exactly when that last group total equals the `'Withdrawal'`
entry-sum — not whenever a third-typed entry exists. -/
theorem c9_balance_and_stats_bases (s : DBState) (client : String) :
    get_cash_balance s client = depositSum s client - withdrawalSum s client ∧
    (get_cash_stats s client).total_deposits = depositSum s client ∧
    (get_cash_stats s client).total_withdrawals =
      lastNonDepositTotal (cashGroups s client) ∧
    ((get_cash_stats s client).net_cash_flow = get_cash_balance s client ↔
      lastNonDepositTotal (cashGroups s client) = withdrawalSum s client) := by
  have hbal : get_cash_balance s client =
      depositSum s client - withdrawalSum s client := by
    rw [get_cash_balance]
    rw [cashGroups_filter_sum, cashGroups_filter_sum]
    rfl
  have hdep : (get_cash_stats s client).total_deposits = depositSum s client := by
    show ((cashGroups s client).foldl statsStep (0, 0)).1 = depositSum s client
    rw [statsFold_fst]
    rw [foldD_pairs _ (by rw [cashGroups_fst]; exact nodup_sqlGroupKeys _)]
    rw [cashGroups_filter_sum]
    rfl
  have hwit : (get_cash_stats s client).total_withdrawals =
      lastNonDepositTotal (cashGroups s client) := by
    show ((cashGroups s client).foldl statsStep (0, 0)).2 =
      lastNonDepositTotal (cashGroups s client)
    rw [statsFold_snd]
    rfl
  refine ⟨hbal, hdep, hwit, ?_⟩
  have hnet : (get_cash_stats s client).net_cash_flow =
      (get_cash_stats s client).total_deposits -
      (get_cash_stats s client).total_withdrawals := rfl
  rw [hnet, hdep, hwit, hbal]
  exact sub_right_inj
